import Mathlib

/-
Shallow embedding of source/backend/ClassRegistry.ts.

The registry's mutable static state (the class map, the registered schemas and a
counter giving every synthesized constructor a distinct identity, standing in for
JavaScript object identity) is threaded explicitly as a RegState value.  The
JavaScript Map is modelled as an association list with Map.get / Map.set /
Map.has semantics (mget / mset / mhas).  The mutually recursive pair
getClass / generateClass is modelled with an explicit fuel parameter; a result
of none means the recursion did not finish within the given fuel.  String.split
on a colon and toLowerCase are modelled on the character list of the string
(ASCII case folding, which is what the class names of the repository use).
The eval of the generated class definition in generateClassForEntity is
modelled by its effect: register the proxy schema when absent, evaluate the
extends clause by looking up the primary base class (a missing base throws a
TypeError, as `class X extends undefined` does), build the constructor, attach
the schema, register it under getKey(schema, name), and look the class up again
under its ecclass full name.  The assert after that lookup is modelled as
throwing (assertFailed) when the lookup misses.
-/

def lowerStr (s : String) : String :=
  String.mk (s.data.map Char.toLower)

def splitChar (sep : Char) : List Char → List (List Char)
  | [] => [[]]
  | c :: rest =>
    match splitChar sep rest with
    | [] => [[]]
    | g :: gs => if c = sep then [] :: g :: gs else (c :: g) :: gs

def splitParts (s : String) : List String :=
  (splitChar ':' s.data).map (fun cs => String.mk cs)

def mget {α : Type} : List (String × α) → String → Option α
  | [], _ => none
  | (k', v) :: rest, k => if k' = k then some v else mget rest k

def mhas {α : Type} : List (String × α) → String → Bool
  | [], _ => false
  | (k', _) :: rest, k => if k' = k then true else mhas rest k

def mset {α : Type} : List (String × α) → String → α → List (String × α)
  | [], k, v => [(k, v)]
  | (k', v') :: rest, k, v => if k' = k then (k, v) :: rest else (k', v') :: mset rest k v

/-- Modelled from the spec: the IModelStatus codes used by ClassRegistry.ts
(IModelError.ts is not under src/); BadArg for a missing class identity and
NotFound for the two not-found constructors. -/
inductive IModelStatus where
  | badArg
  | notFound
deriving DecidableEq

/-- Modelled from the spec: a thrown JavaScript error value.  An IModelError
carries its errorNumber status; the remaining constructors are the ordinary
JavaScript throws the eval'd class definition can produce, none of which is an
instance of IModelError. -/
inductive JsError where
  | iModelError (errorNumber : IModelStatus)
  | typeError
  | evalFailure
  | assertFailed
deriving DecidableEq

def isClassNotFoundError (err : JsError) : Bool :=
  match err with
  | JsError.iModelError n => decide (n = IModelStatus.notFound)
  | _ => false

def isMetaDataNotFoundError (err : JsError) : Bool :=
  match err with
  | JsError.iModelError n => decide (n = IModelStatus.notFound)
  | _ => false

def makeClassNotFoundError : JsError :=
  JsError.iModelError IModelStatus.notFound

def makeMetaDataNotFoundError : JsError :=
  JsError.iModelError IModelStatus.notFound

/-- Modelled from the spec: a Schema is a named logical grouping of classes
(Schema.ts is not under src/); only its name is relevant to the registry. -/
structure Schema where
  name : String
deriving DecidableEq

/-- Modelled from the spec: a ConstructorEntry, the runtime constructor for an
entity class.  It carries its own class name, the schema it is attached to,
its parent constructor linkage (the extends chain: absent for a root class)
and a distinct identity (JavaScript object identity of the synthesized class). -/
inductive EntityCtor where
  | root (name : String) (schema : Schema) (ctorId : Nat)
  | derived (name : String) (schema : Schema) (parentCtor : EntityCtor) (ctorId : Nat)
deriving DecidableEq

def EntityCtor.name : EntityCtor → String
  | EntityCtor.root n _ _ => n
  | EntityCtor.derived n _ _ _ => n

def EntityCtor.schema : EntityCtor → Schema
  | EntityCtor.root _ s _ => s
  | EntityCtor.derived _ s _ _ => s

def EntityCtor.parent : EntityCtor → Option EntityCtor
  | EntityCtor.root _ _ _ => none
  | EntityCtor.derived _ _ p _ => some p

def EntityCtor.ctorId : EntityCtor → Nat
  | EntityCtor.root _ _ i => i
  | EntityCtor.derived _ _ _ i => i

/-- Modelled from the spec: an EntityMetaData descriptor (Entity.ts is not
under src/) as ClassRegistry.ts consumes it: its ecclass full-name identity
(possibly absent, which generateClass treats as metadata-not-found) and its
ordered base-class full names, of which only the first participates. -/
structure EntityMetaData where
  ecclass : Option String
  baseClasses : List String
deriving DecidableEq

structure MetaDataRegistry where
  reg : List (String × EntityMetaData)
deriving DecidableEq

def MetaDataRegistry.find (r : MetaDataRegistry) (classFullName : String) : Option EntityMetaData :=
  mget r.reg (lowerStr classFullName)

def MetaDataRegistry.add (r : MetaDataRegistry) (classFullName : String) (metaData : EntityMetaData) : MetaDataRegistry :=
  MetaDataRegistry.mk (mset r.reg (lowerStr classFullName) metaData)

/-- Modelled from the spec: the IModelDb as ClassRegistry.ts uses it, namely as
the owner of the classMetaDataRegistry metadata provider. -/
structure IModelDb where
  classMetaDataRegistry : MetaDataRegistry
deriving DecidableEq

/-- Modelled from the spec: EntityProps as createInstance consumes it; only the
classFullName field (possibly missing) is inspected by ClassRegistry.ts. -/
structure EntityProps where
  classFullName : Option String
deriving DecidableEq

/-- Modelled from the spec: an Entity instance produced by `new ctor(props, iModel)`;
it holds a reference to its constructor and the props it was built from. -/
structure Entity where
  ctor : EntityCtor
  props : EntityProps
deriving DecidableEq

/-- The mutable static state of ClassRegistry (classMap), the schema directory
(Schemas, modelled from the spec as the list of registered schema names, since
Schema.ts is not under src/), and the next fresh constructor identity. -/
structure RegState where
  classMap : List (String × EntityCtor)
  schemas : List String
  nextId : Nat
deriving DecidableEq

def getKey (schemaName : String) (className : String) : String :=
  lowerStr (schemaName ++ ":" ++ className)

def lookupClass (st : RegState) (name : String) : Option EntityCtor :=
  mget st.classMap (lowerStr name)

def registerEcClass (st : RegState) (ctor : EntityCtor) : RegState :=
  RegState.mk (mset st.classMap (getKey ctor.schema.name ctor.name) ctor) st.schemas st.nextId

def isClassRegistered (st : RegState) (schemaName : String) (className : String) : Bool :=
  mhas st.classMap (getKey schemaName className)

/-- The schema directory after the eval'd domainDef: register a proxy schema
under the parsed schema name when none is registered yet. -/
def schemaUpd (schemas : List String) (s : String) : List String :=
  if schemas.contains s then schemas else schemas ++ [s]

/-- Tail of the eval'd class definition: register the new constructor under
getKey(schema.name, ctor.name), consume a fresh identity, then look the class
up again under its ecclass; the assert on that lookup is modelled as throwing. -/
def finishSynthesis (st : RegState) (ctor : EntityCtor) (ec : String) : (Except JsError EntityCtor) × RegState :=
  let st2 := RegState.mk (mset st.classMap (getKey ctor.schema.name ctor.name) ctor) st.schemas (st.nextId + 1)
  match mget st2.classMap (lowerStr ec) with
  | some c => (Except.ok c, st2)
  | none => (Except.error JsError.assertFailed, st2)

def generateClassForEntity (entityMetaData : EntityMetaData) (st : RegState) : (Except JsError EntityCtor) × RegState :=
  match entityMetaData.ecclass with
  | none => (Except.error JsError.typeError, st)
  | some ec =>
    match splitParts ec with
    | schemaName :: className :: _ =>
      let st1 := RegState.mk st.classMap (schemaUpd st.schemas schemaName) st.nextId
      match entityMetaData.baseClasses with
      | [] => finishSynthesis st1 (EntityCtor.root className (Schema.mk schemaName) st1.nextId) ec
      | b :: _ =>
        match lookupClass st1 b with
        | none => (Except.error JsError.typeError, st1)
        | some p => finishSynthesis st1 (EntityCtor.derived className (Schema.mk schemaName) p st1.nextId) ec
    | _ => (Except.error JsError.evalFailure, st)

/-- The body of ClassRegistry.generateClass, parameterized by the recursive
call back into getClass for the primary base class. -/
def generateClassAux (recurse : String → RegState → Option ((Except JsError EntityCtor) × RegState)) (classFullName : String) (iModel : IModelDb) (st : RegState) : Option ((Except JsError EntityCtor) × RegState) :=
  match iModel.classMetaDataRegistry.find classFullName with
  | none => some (Except.error makeMetaDataNotFoundError, st)
  | some metadata =>
    match metadata.ecclass with
    | none => some (Except.error makeMetaDataNotFoundError, st)
    | some _ =>
      match metadata.baseClasses with
      | [] => some (generateClassForEntity metadata st)
      | b :: _ =>
        match recurse b st with
        | none => none
        | some (Except.error e, st') => some (Except.error e, st')
        | some (Except.ok _, st') => some (generateClassForEntity metadata st')

def getClassF : Nat → String → IModelDb → RegState → Option ((Except JsError EntityCtor) × RegState)
  | 0, _, _, _ => none
  | fuel + 1, fullName, iModel, st =>
    if mhas st.classMap (lowerStr fullName) = true then
      match mget st.classMap (lowerStr fullName) with
      | some ctor => some (Except.ok ctor, st)
      | none => some (Except.error makeClassNotFoundError, st)
    else
      generateClassAux (fun n s => getClassF fuel n iModel s) fullName iModel st

def generateClassF (fuel : Nat) (classFullName : String) (iModel : IModelDb) (st : RegState) : Option ((Except JsError EntityCtor) × RegState) :=
  generateClassAux (fun n s => getClassF fuel n iModel s) classFullName iModel st

def createInstance (fuel : Nat) (props : EntityProps) (iModel : IModelDb) (st : RegState) : Option ((Except JsError Entity) × RegState) :=
  match props.classFullName with
  | none => some (Except.error (JsError.iModelError IModelStatus.badArg), st)
  | some cfn =>
    if cfn = "" then
      some (Except.error (JsError.iModelError IModelStatus.badArg), st)
    else
      match mget st.classMap (lowerStr cfn) with
      | some ctor => some (Except.ok (Entity.mk ctor props), st)
      | none =>
        match generateClassF fuel cfn iModel st with
        | none => none
        | some (Except.error e, st') => some (Except.error e, st')
        | some (Except.ok ctor, st') => some (Except.ok (Entity.mk ctor props), st')

/-- A full name is well formed when it parses as schema:class and the key the
synthesized class is registered under equals its own lower-cased name. -/
def wfName (n : String) : Bool :=
  match splitParts n with
  | s :: c :: _ => decide (getKey s c = lowerStr n)
  | _ => false

/-- The metadata entry the provider returns for n, if any, names itself
consistently: its ecclass is a well-formed full name equal to n up to case. -/
def mdNameOk (iModel : IModelDb) (n : String) : Bool :=
  match iModel.classMetaDataRegistry.find n with
  | none => true
  | some md =>
    match md.ecclass with
    | none => true
    | some ec => wfName ec && decide (lowerStr ec = lowerStr n)

/-- The acyclicity precondition on the primary-base-class graph, bounded by k:
following baseClasses[0] links from n reaches, within k steps, a class that is
already registered, a class whose metadata is absent or lacks its identity
(an immediately failing call), or a root class with an empty base-class list. -/
def chainOk (iModel : IModelDb) (st : RegState) : Nat → String → Bool
  | 0, _ => false
  | k + 1, n =>
    if mhas st.classMap (lowerStr n) = true then true
    else
      match iModel.classMetaDataRegistry.find n with
      | none => true
      | some md =>
        match md.ecclass with
        | none => true
        | some _ =>
          match md.baseClasses with
          | [] => true
          | b :: _ => chainOk iModel st k b

theorem mhas_eq_isSome {α : Type} (m : List (String × α)) (k : String) :
    mhas m k = (mget m k).isSome := by
  induction m with
  | nil => rfl
  | cons p rest ih =>
    cases p with
    | mk k' v =>
      by_cases h : k' = k
      · simp [mhas, mget, h]
      · simp [mhas, mget, h, ih]

theorem mget_mset_self {α : Type} (m : List (String × α)) (k : String) (v : α) :
    mget (mset m k v) k = some v := by
  induction m with
  | nil => simp [mset, mget]
  | cons p rest ih =>
    cases p with
    | mk k' v' =>
      by_cases h : k' = k
      · simp [mset, mget, h]
      · simp [mset, mget, h, ih]

theorem mget_mset_ne {α : Type} (m : List (String × α)) (k k' : String) (v : α)
    (h : k ≠ k') : mget (mset m k v) k' = mget m k' := by
  induction m with
  | nil => simp [mset, mget, h]
  | cons p rest ih =>
    cases p with
    | mk k0 v0 =>
      by_cases h0 : k0 = k
      · subst h0
        simp [mset, mget, h]
      · simp only [mset, if_neg h0]
        by_cases h1 : k0 = k'
        · simp [mget, h1]
        · simp [mget, h1, ih]

theorem getClassF_hit {fuel : Nat} {n : String} {iModel : IModelDb} {st : RegState}
    {c : EntityCtor} (h : mget st.classMap (lowerStr n) = some c) :
    getClassF (fuel + 1) n iModel st = some (Except.ok c, st) := by
  have hh : mhas st.classMap (lowerStr n) = true := by
    rw [mhas_eq_isSome, h]
    rfl
  simp [getClassF, hh, h]

theorem getClassF_miss {fuel : Nat} {n : String} {iModel : IModelDb} {st : RegState}
    (h : mget st.classMap (lowerStr n) = none) :
    getClassF (fuel + 1) n iModel st = generateClassF fuel n iModel st := by
  have hh : mhas st.classMap (lowerStr n) = false := by
    rw [mhas_eq_isSome, h]
    rfl
  simp [getClassF, hh, generateClassF]

theorem genF_noMd {fuel : Nat} {n : String} {iModel : IModelDb} {st : RegState}
    (h : iModel.classMetaDataRegistry.find n = none) :
    generateClassF fuel n iModel st = some (Except.error makeMetaDataNotFoundError, st) := by
  simp [generateClassF, generateClassAux, h]

theorem genF_noEc {fuel : Nat} {n : String} {iModel : IModelDb} {st : RegState}
    {md : EntityMetaData} (h : iModel.classMetaDataRegistry.find n = some md)
    (he : md.ecclass = none) :
    generateClassF fuel n iModel st = some (Except.error makeMetaDataNotFoundError, st) := by
  simp [generateClassF, generateClassAux, h, he]

theorem genF_root {fuel : Nat} {n : String} {iModel : IModelDb} {st : RegState}
    {md : EntityMetaData} {e : String} (h : iModel.classMetaDataRegistry.find n = some md)
    (he : md.ecclass = some e) (hb : md.baseClasses = []) :
    generateClassF fuel n iModel st = some (generateClassForEntity md st) := by
  simp [generateClassF, generateClassAux, h, he, hb]

theorem genF_base_ok {fuel : Nat} {n : String} {iModel : IModelDb} {st st' : RegState}
    {md : EntityMetaData} {e b : String} {r : List String} {p : EntityCtor}
    (h : iModel.classMetaDataRegistry.find n = some md)
    (he : md.ecclass = some e) (hb : md.baseClasses = b :: r)
    (hrec : getClassF fuel b iModel st = some (Except.ok p, st')) :
    generateClassF fuel n iModel st = some (generateClassForEntity md st') := by
  simp [generateClassF, generateClassAux, h, he, hb, hrec]

theorem genF_base_err {fuel : Nat} {n : String} {iModel : IModelDb} {st st' : RegState}
    {md : EntityMetaData} {e b : String} {r : List String} {er : JsError}
    (h : iModel.classMetaDataRegistry.find n = some md)
    (he : md.ecclass = some e) (hb : md.baseClasses = b :: r)
    (hrec : getClassF fuel b iModel st = some (Except.error er, st')) :
    generateClassF fuel n iModel st = some (Except.error er, st') := by
  simp [generateClassF, generateClassAux, h, he, hb, hrec]

theorem genF_base_none {fuel : Nat} {n : String} {iModel : IModelDb} {st : RegState}
    {md : EntityMetaData} {e b : String} {r : List String}
    (h : iModel.classMetaDataRegistry.find n = some md)
    (he : md.ecclass = some e) (hb : md.baseClasses = b :: r)
    (hrec : getClassF fuel b iModel st = none) :
    generateClassF fuel n iModel st = none := by
  simp [generateClassF, generateClassAux, h, he, hb, hrec]

theorem genFE_root {ec s c : String} {rest : List String} {st : RegState}
    (hsp : splitParts ec = s :: c :: rest) (hk : getKey s c = lowerStr ec) :
    generateClassForEntity (EntityMetaData.mk (some ec) []) st =
      (Except.ok (EntityCtor.root c (Schema.mk s) st.nextId),
       RegState.mk (mset st.classMap (lowerStr ec) (EntityCtor.root c (Schema.mk s) st.nextId))
         (schemaUpd st.schemas s) (st.nextId + 1)) := by
  simp only [generateClassForEntity, hsp, finishSynthesis, EntityCtor.name, EntityCtor.schema,
    hk, mget_mset_self]

theorem genFE_derived {ec s c b : String} {br rest : List String} {p : EntityCtor} {st : RegState}
    (hsp : splitParts ec = s :: c :: rest) (hk : getKey s c = lowerStr ec)
    (hbase : lookupClass st b = some p) :
    generateClassForEntity (EntityMetaData.mk (some ec) (b :: br)) st =
      (Except.ok (EntityCtor.derived c (Schema.mk s) p st.nextId),
       RegState.mk (mset st.classMap (lowerStr ec) (EntityCtor.derived c (Schema.mk s) p st.nextId))
         (schemaUpd st.schemas s) (st.nextId + 1)) := by
  have hbase1 : lookupClass (RegState.mk st.classMap (schemaUpd st.schemas s) st.nextId) b = some p := hbase
  simp only [generateClassForEntity, hsp, hbase1, finishSynthesis, EntityCtor.name,
    EntityCtor.schema, hk, mget_mset_self]

theorem genFE_base_missing {ec s c b : String} {br rest : List String} {st : RegState}
    (hsp : splitParts ec = s :: c :: rest) (hbase : lookupClass st b = none) :
    generateClassForEntity (EntityMetaData.mk (some ec) (b :: br)) st =
      (Except.error JsError.typeError,
       RegState.mk st.classMap (schemaUpd st.schemas s) st.nextId) := by
  have hbase1 : lookupClass (RegState.mk st.classMap (schemaUpd st.schemas s) st.nextId) b = none := hbase
  simp only [generateClassForEntity, hsp, hbase1]

theorem wfName_spec {n : String} (h : wfName n = true) :
    ∃ s c rest, splitParts n = s :: c :: rest ∧ getKey s c = lowerStr n := by
  unfold wfName at h
  cases hsp : splitParts n with
  | nil => rw [hsp] at h; simp at h
  | cons s tl =>
    cases tl with
    | nil => rw [hsp] at h; simp at h
    | cons c rest =>
      rw [hsp] at h
      simp only [decide_eq_true_eq] at h
      exact ⟨s, c, rest, rfl, h⟩

/-- C1 counterexample: the two error makers produce the very same error value
(IModelError with errorNumber NotFound), and each of the two classifiers
accepts the other kind's error, so at these concrete errors the caller cannot
tell a class-not-found error from a metadata-not-found error. -/
theorem errorMakers_collapse_cex :
    makeClassNotFoundError = makeMetaDataNotFoundError ∧
    isClassNotFoundError makeMetaDataNotFoundError = true ∧
    isMetaDataNotFoundError makeClassNotFoundError = true ∧
    isClassNotFoundError makeClassNotFoundError = isClassNotFoundError makeMetaDataNotFoundError ∧
    isMetaDataNotFoundError makeClassNotFoundError = isMetaDataNotFoundError makeMetaDataNotFoundError := by
  exact ⟨rfl, rfl, rfl, rfl, rfl⟩

/-- C1 amended: BadArgument is distinguishable from the other two kinds (a
different errorNumber), but ClassNotFound and MetaDataNotFound are represented
identically — makeClassNotFoundError and makeMetaDataNotFoundError build equal
errors and isClassNotFoundError and isMetaDataNotFoundError are the same
predicate on every error — so those two kinds cannot be told apart. -/
theorem errorTaxonomy_amended :
    makeClassNotFoundError = makeMetaDataNotFoundError ∧
    (∀ e : JsError, isClassNotFoundError e = isMetaDataNotFoundError e) ∧
    isClassNotFoundError (JsError.iModelError IModelStatus.badArg) = false ∧
    isMetaDataNotFoundError (JsError.iModelError IModelStatus.badArg) = false ∧
    isClassNotFoundError makeClassNotFoundError = true ∧
    isMetaDataNotFoundError makeMetaDataNotFoundError = true := by
  exact ⟨rfl, fun e => rfl, rfl, rfl, rfl, rfl⟩

/-- C2 counterexample: with an empty metadata provider but a constructor for
s:x already registered (registerEcClass is a public registration path that
does not consult metadata), getClass on s:x succeeds with the registered
constructor instead of failing with MetaDataNotFound. -/
theorem getClass_missingMetaData_cex :
    (IModelDb.mk (MetaDataRegistry.mk [])).classMetaDataRegistry.find ("s:x") = none ∧
    getClassF 1 ("s:x") (IModelDb.mk (MetaDataRegistry.mk []))
        (RegState.mk [(("s:x"), EntityCtor.root ("x") (Schema.mk ("s")) 0)] [("s")] 1)
      = some (Except.ok (EntityCtor.root ("x") (Schema.mk ("s")) 0),
          RegState.mk [(("s:x"), EntityCtor.root ("x") (Schema.mk ("s")) 0)] [("s")] 1) := by
  exact ⟨rfl, rfl⟩

/-- C2 amended: if the metadata provider has no entry for X and X is not
already in the class map, then getClass(X) fails with MetaDataNotFound and the
registry state is completely unchanged, so the class map still has no entry
for X afterward. -/
theorem getClass_missingMetaData_amended {fuel : Nat} {n : String} {iModel : IModelDb}
    {st : RegState} (hmap : mget st.classMap (lowerStr n) = none)
    (hmd : iModel.classMetaDataRegistry.find n = none) :
    getClassF (fuel + 1) n iModel st = some (Except.error makeMetaDataNotFoundError, st) ∧
    mget st.classMap (lowerStr n) = none := by
  refine ⟨?_, hmap⟩
  rw [getClassF_miss hmap]
  exact genF_noMd hmd

/-- C2 amended, witness at fuel 0, class name s:x, empty provider and empty map. -/
theorem getClass_missingMetaData_amended_witness :
    getClassF 1 ("s:x") (IModelDb.mk (MetaDataRegistry.mk [])) (RegState.mk [] [] 0)
      = some (Except.error makeMetaDataNotFoundError, RegState.mk [] [] 0) ∧
    mget (RegState.mk [] [] 0 : RegState).classMap (lowerStr ("s:x")) = none :=
  getClass_missingMetaData_amended (by decide) (by decide)

/-- C5: class-name keys are case-insensitive: two full names that are equal
after lower-casing lead getClass to exactly the same result and the same
final registry state, because every map operation (the class-map has and get,
and the metadata find) normalizes the key by lower-casing it first. -/
theorem getClass_case_insensitive (fuel : Nat) (n1 n2 : String) (iModel : IModelDb)
    (st : RegState) (h : lowerStr n1 = lowerStr n2) :
    getClassF fuel n1 iModel st = getClassF fuel n2 iModel st := by
  cases fuel with
  | zero => rfl
  | succ f => simp only [getClassF, generateClassAux, MetaDataRegistry.find, h]

/-- C5 witness: Foo:Bar and foo:bar resolve identically on an empty registry. -/
theorem getClass_case_insensitive_witness :
    getClassF 1 ("Foo:Bar") (IModelDb.mk (MetaDataRegistry.mk [])) (RegState.mk [] [] 0)
      = getClassF 1 ("foo:bar") (IModelDb.mk (MetaDataRegistry.mk [])) (RegState.mk [] [] 0) :=
  getClass_case_insensitive 1 ("Foo:Bar") ("foo:bar") (IModelDb.mk (MetaDataRegistry.mk []))
    (RegState.mk [] [] 0) (by decide)

/-- C6: when props carries no classFullName, or an empty one, createInstance
fails with BadArg and the registry state — in particular the class map — is
returned unchanged: the guard throws before any map operation. -/
theorem createInstance_badArg (fuel : Nat) (props : EntityProps) (iModel : IModelDb)
    (st : RegState) (h : props.classFullName = none ∨ props.classFullName = some "") :
    createInstance fuel props iModel st
      = some (Except.error (JsError.iModelError IModelStatus.badArg), st) := by
  cases h with
  | inl h0 => simp [createInstance, h0]
  | inr h0 => simp [createInstance, h0]

/-- C6 witness at the empty classFullName. -/
theorem createInstance_badArg_witness :
    createInstance 0 (EntityProps.mk (some "")) (IModelDb.mk (MetaDataRegistry.mk []))
        (RegState.mk [] [] 0)
      = some (Except.error (JsError.iModelError IModelStatus.badArg), RegState.mk [] [] 0) :=
  createInstance_badArg 0 (EntityProps.mk (some "")) (IModelDb.mk (MetaDataRegistry.mk []))
    (RegState.mk [] [] 0) (Or.inr rfl)

/-- C9: MetaDataRegistry round trip: after add(n, d), find returns d for every
name equal to n up to case (add and find both lower-case the key, and mset
overwrites an existing entry, so the last write wins); find itself is a pure
lookup — it takes the registry and returns only an optional descriptor, so it
cannot modify the cache. -/
theorem metaDataRegistry_add_find_roundtrip (r : MetaDataRegistry) (n n' : String)
    (d : EntityMetaData) (h : lowerStr n' = lowerStr n) :
    (r.add n d).find n' = some d := by
  unfold MetaDataRegistry.find MetaDataRegistry.add
  rw [h]
  exact mget_mset_self r.reg (lowerStr n) d

/-- C9 witness: add under S:C, find under s:c, on top of an earlier entry for
the same normalized key (last write wins). -/
theorem metaDataRegistry_add_find_roundtrip_witness :
    ((MetaDataRegistry.mk [(("s:c"), EntityMetaData.mk (some ("s:c")) [("s:b")])]).add ("S:C")
        (EntityMetaData.mk (some ("S:C")) [])).find ("s:c")
      = some (EntityMetaData.mk (some ("S:C")) []) :=
  metaDataRegistry_add_find_roundtrip
    (MetaDataRegistry.mk [(("s:c"), EntityMetaData.mk (some ("s:c")) [("s:b")])])
    ("S:C") ("s:c") (EntityMetaData.mk (some ("S:C")) []) (by decide)

/-- C10: in the map-hit path of getClass, the class-not-found throw behind the
!ctor guard is unreachable: whenever has succeeds on the normalized key, get on
the same key returns a constructor, and getClass returns that stored
constructor with the state unchanged, never the ClassNotFound error. -/
theorem getClass_mapHit_no_classNotFound (fuel : Nat) (n : String) (iModel : IModelDb)
    (st : RegState) (h : mhas st.classMap (lowerStr n) = true) :
    ∃ c, mget st.classMap (lowerStr n) = some c ∧
      getClassF (fuel + 1) n iModel st = some (Except.ok c, st) := by
  rw [mhas_eq_isSome] at h
  cases hg : mget st.classMap (lowerStr n) with
  | none => rw [hg] at h; simp at h
  | some c => exact ⟨c, rfl, getClassF_hit hg⟩

/-- C10 witness on a registry holding one class. -/
theorem getClass_mapHit_no_classNotFound_witness :
    ∃ c, mget (RegState.mk [(("s:x"), EntityCtor.root ("x") (Schema.mk ("s")) 0)] [("s")] 1 : RegState).classMap
        (lowerStr ("s:x")) = some c ∧
      getClassF 1 ("s:x") (IModelDb.mk (MetaDataRegistry.mk []))
        (RegState.mk [(("s:x"), EntityCtor.root ("x") (Schema.mk ("s")) 0)] [("s")] 1)
      = some (Except.ok c,
          RegState.mk [(("s:x"), EntityCtor.root ("x") (Schema.mk ("s")) 0)] [("s")] 1) :=
  getClass_mapHit_no_classNotFound 0 ("s:x") (IModelDb.mk (MetaDataRegistry.mk []))
    (RegState.mk [(("s:x"), EntityCtor.root ("x") (Schema.mk ("s")) 0)] [("s")] 1) (by decide)

/-- C7: base-before-derived invariant: whenever generateClassForEntity
succeeds in synthesizing and registering a constructor for a class whose
base-class list is non-empty, the constructor of the primary base class
(baseClasses[0]) was already registered in the class map at that moment —
its eval'd extends clause looks the base up and throws otherwise. -/
theorem synthesis_requires_base_registered {md : EntityMetaData} {st st' : RegState}
    {b : String} {r : List String} {c : EntityCtor}
    (hb : md.baseClasses = b :: r)
    (h : generateClassForEntity md st = (Except.ok c, st')) :
    ∃ p, lookupClass st b = some p := by
  obtain ⟨mdec, mdbc⟩ := md
  have hb' : mdbc = b :: r := hb
  subst hb'
  cases mdec with
  | none => simp [generateClassForEntity] at h
  | some ec =>
    cases hsp : splitParts ec with
    | nil => simp [generateClassForEntity, hsp] at h
    | cons s tl =>
      cases tl with
      | nil => simp [generateClassForEntity, hsp] at h
      | cons cl rest =>
        simp only [generateClassForEntity, hsp] at h
        cases hlb : lookupClass (RegState.mk st.classMap (schemaUpd st.schemas s) st.nextId) b with
        | none => rw [hlb] at h; simp at h
        | some p => exact ⟨p, hlb⟩

/-- C7 witness: synthesizing s:b (primary base s:a) on a registry already
holding s:a. -/
theorem synthesis_requires_base_registered_witness :
    ∃ p, lookupClass (RegState.mk [(("s:a"), EntityCtor.root ("a") (Schema.mk ("s")) 0)] [("s")] 1)
      ("s:a") = some p :=
  @synthesis_requires_base_registered
    (EntityMetaData.mk (some ("s:b")) [("s:a")])
    (RegState.mk [(("s:a"), EntityCtor.root ("a") (Schema.mk ("s")) 0)] [("s")] 1)
    (RegState.mk
      [(("s:a"), EntityCtor.root ("a") (Schema.mk ("s")) 0),
       (("s:b"), EntityCtor.derived ("b") (Schema.mk ("s"))
         (EntityCtor.root ("a") (Schema.mk ("s")) 0) 1)] [("s")] 2)
    ("s:a") []
    (EntityCtor.derived ("b") (Schema.mk ("s")) (EntityCtor.root ("a") (Schema.mk ("s")) 0) 1)
    rfl rfl

/-- C8: termination of the mutual recursion generateClass → getClass →
generateClass under the acyclicity precondition: if every chain of
baseClasses[0] links from n reaches, within k steps, an already-registered
class, an immediately failing metadata lookup, or a root class with an empty
base-class list (chainOk), then the call completes within fuel k (it does not
run out of fuel, i.e. the recursion terminates). -/
theorem getClass_terminates_of_chainOk (iModel : IModelDb) (st : RegState) (k : Nat)
    (n : String) (h : chainOk iModel st k n = true) :
    (getClassF k n iModel st).isSome = true := by
  induction k generalizing n with
  | zero => simp [chainOk] at h
  | succ k ih =>
    by_cases hm : mhas st.classMap (lowerStr n) = true
    · rw [mhas_eq_isSome] at hm
      cases hg : mget st.classMap (lowerStr n) with
      | none => rw [hg] at hm; simp at hm
      | some c => rw [getClassF_hit hg]; rfl
    · have hm' : mhas st.classMap (lowerStr n) = false := by
        cases hmm : mhas st.classMap (lowerStr n) with
        | false => rfl
        | true => exact absurd hmm hm
      have hg : mget st.classMap (lowerStr n) = none := by
        rw [mhas_eq_isSome] at hm'
        cases hgg : mget st.classMap (lowerStr n) with
        | none => rfl
        | some c => rw [hgg] at hm'; simp at hm'
      rw [getClassF_miss hg]
      cases hf : iModel.classMetaDataRegistry.find n with
      | none => rw [genF_noMd hf]; rfl
      | some md =>
        obtain ⟨mdec, mdbc⟩ := md
        cases mdec with
        | none => rw [genF_noEc hf rfl]; rfl
        | some e =>
          cases mdbc with
          | nil => rw [genF_root hf rfl rfl]; rfl
          | cons b r =>
            have hcb : chainOk iModel st k b = true := by
              simp only [chainOk, hm', Bool.false_eq_true, if_false, hf] at h
              exact h
            have hterm := ih b hcb
            cases hrec : getClassF k b iModel st with
            | none => rw [hrec] at hterm; simp at hterm
            | some res =>
              obtain ⟨r1, st'⟩ := res
              cases r1 with
              | error er => rw [genF_base_err hf rfl rfl hrec]; rfl
              | ok p => rw [genF_base_ok hf rfl rfl hrec]; rfl

/-- C8 witness: a root class with no base, empty registry, fuel 1. -/
theorem getClass_terminates_of_chainOk_witness :
    (getClassF 1 ("s:a")
      (IModelDb.mk (MetaDataRegistry.mk [(("s:a"), EntityMetaData.mk (some ("s:a")) [])]))
      (RegState.mk [] [] 0)).isSome = true :=
  getClass_terminates_of_chainOk
    (IModelDb.mk (MetaDataRegistry.mk [(("s:a"), EntityMetaData.mk (some ("s:a")) [])]))
    (RegState.mk [] [] 0) 1 ("s:a") (by decide)

/-- C4 counterexample: the metadata provider is allowed (it validates nothing)
to hold, under the key s:c, a descriptor whose own ecclass is other:thing.
The first getClass("s:c") then succeeds but registers the synthesized
constructor under other:thing, not under s:c, so the second getClass("s:c")
misses the map again, re-runs the synthesis path, and returns a freshly
created constructor — not the identical instance (their identities differ,
and nextId has advanced again, showing synthesis re-ran). -/
theorem getClass_idempotent_cex :
    getClassF 1 ("s:c")
        (IModelDb.mk (MetaDataRegistry.mk [(("s:c"), EntityMetaData.mk (some ("other:thing")) [])]))
        (RegState.mk [] [] 0)
      = some (Except.ok (EntityCtor.root ("thing") (Schema.mk ("other")) 0),
          RegState.mk [(("other:thing"), EntityCtor.root ("thing") (Schema.mk ("other")) 0)] [("other")] 1) ∧
    getClassF 1 ("s:c")
        (IModelDb.mk (MetaDataRegistry.mk [(("s:c"), EntityMetaData.mk (some ("other:thing")) [])]))
        (RegState.mk [(("other:thing"), EntityCtor.root ("thing") (Schema.mk ("other")) 0)] [("other")] 1)
      = some (Except.ok (EntityCtor.root ("thing") (Schema.mk ("other")) 1),
          RegState.mk [(("other:thing"), EntityCtor.root ("thing") (Schema.mk ("other")) 1)] [("other")] 2) ∧
    EntityCtor.root ("thing") (Schema.mk ("other")) 0
      ≠ EntityCtor.root ("thing") (Schema.mk ("other")) 1 := by
  exact ⟨rfl, rfl, by decide⟩

/-- C4 amended: for every class name n whose metadata entry (if any) names
itself consistently (its ecclass is a well-formed schema:class name equal to n
up to case — mdNameOk), if a first call getClass(n) succeeds with constructor
c and state st₁, then a second call returns exactly the same constructor c and
leaves the state st₁ untouched: it finds the entry in the map and does not run
the synthesis path again. -/
theorem getClass_idempotent_amended {fuel : Nat} {n : String} {iModel : IModelDb}
    {st st₁ : RegState} {c : EntityCtor}
    (hwf : mdNameOk iModel n = true)
    (h1 : getClassF (fuel + 1) n iModel st = some (Except.ok c, st₁)) :
    getClassF (fuel + 1) n iModel st₁ = some (Except.ok c, st₁) := by
  cases hg : mget st.classMap (lowerStr n) with
  | some c0 =>
    rw [getClassF_hit hg] at h1
    simp only [Option.some.injEq, Prod.mk.injEq, Except.ok.injEq] at h1
    obtain ⟨hc0, hst⟩ := h1
    subst hc0
    subst hst
    exact getClassF_hit hg
  | none =>
    rw [getClassF_miss hg] at h1
    cases hf : iModel.classMetaDataRegistry.find n with
    | none => rw [genF_noMd hf] at h1; simp at h1
    | some md =>
      obtain ⟨mdec, mdbc⟩ := md
      cases mdec with
      | none => rw [genF_noEc hf rfl] at h1; simp at h1
      | some ec =>
        have hwf2 : wfName ec = true ∧ lowerStr ec = lowerStr n := by
          simp only [mdNameOk, hf, Bool.and_eq_true, decide_eq_true_eq] at hwf
          exact hwf
        obtain ⟨hwfe, hle⟩ := hwf2
        obtain ⟨s, cl, rest, hsp, hk⟩ := wfName_spec hwfe
        cases mdbc with
        | nil =>
          rw [genF_root hf rfl rfl] at h1
          rw [genFE_root hsp hk] at h1
          simp only [Option.some.injEq, Prod.mk.injEq, Except.ok.injEq] at h1
          obtain ⟨hc0, hst⟩ := h1
          subst hc0
          subst hst
          have hreg : mget (mset st.classMap (lowerStr ec)
              (EntityCtor.root cl (Schema.mk s) st.nextId)) (lowerStr n)
              = some (EntityCtor.root cl (Schema.mk s) st.nextId) := by
            rw [← hle]
            exact mget_mset_self st.classMap (lowerStr ec) (EntityCtor.root cl (Schema.mk s) st.nextId)
          exact getClassF_hit hreg
        | cons b r =>
          cases hrec : getClassF fuel b iModel st with
          | none => rw [genF_base_none hf rfl rfl hrec] at h1; simp at h1
          | some res =>
            obtain ⟨r1, st'⟩ := res
            cases r1 with
            | error er => rw [genF_base_err hf rfl rfl hrec] at h1; simp at h1
            | ok p =>
              rw [genF_base_ok hf rfl rfl hrec] at h1
              cases hlb : lookupClass st' b with
              | none => rw [genFE_base_missing hsp hlb] at h1; simp at h1
              | some pp =>
                rw [genFE_derived hsp hk hlb] at h1
                simp only [Option.some.injEq, Prod.mk.injEq, Except.ok.injEq] at h1
                obtain ⟨hc0, hst⟩ := h1
                subst hc0
                subst hst
                have hreg : mget (mset st'.classMap (lowerStr ec)
                    (EntityCtor.derived cl (Schema.mk s) pp st'.nextId)) (lowerStr n)
                    = some (EntityCtor.derived cl (Schema.mk s) pp st'.nextId) := by
                  rw [← hle]
                  exact mget_mset_self st'.classMap (lowerStr ec)
                    (EntityCtor.derived cl (Schema.mk s) pp st'.nextId)
                exact getClassF_hit hreg

/-- C4 amended, witness: a well-named root class s:c, first call synthesizes,
second call returns the identical entry with the state unchanged. -/
theorem getClass_idempotent_amended_witness :
    getClassF 1 ("s:c")
        (IModelDb.mk (MetaDataRegistry.mk [(("s:c"), EntityMetaData.mk (some ("s:c")) [])]))
        (RegState.mk [(("s:c"), EntityCtor.root ("c") (Schema.mk ("s")) 0)] [("s")] 1)
      = some (Except.ok (EntityCtor.root ("c") (Schema.mk ("s")) 0),
          RegState.mk [(("s:c"), EntityCtor.root ("c") (Schema.mk ("s")) 0)] [("s")] 1) :=
  @getClass_idempotent_amended 0 ("s:c")
    (IModelDb.mk (MetaDataRegistry.mk [(("s:c"), EntityMetaData.mk (some ("s:c")) [])]))
    (RegState.mk [] [] 0)
    (RegState.mk [(("s:c"), EntityCtor.root ("c") (Schema.mk ("s")) 0)] [("s")] 1)
    (EntityCtor.root ("c") (Schema.mk ("s")) 0)
    (by decide) rfl

/-- C3: topological synthesis: with metadata giving C primary base B, B
primary base A, and A a root (empty base-class list), each descriptor naming
itself (well-formed schema:class ecclass), and none of the three registered
beforehand, one call getClass(C) succeeds and registers all three classes,
with B's parent-constructor linkage equal to A's registered constructor and
C's equal to B's. -/
theorem getClass_topological_chain (f : Nat) (A B C : String) (iModel : IModelDb)
    (st : RegState)
    (hA : iModel.classMetaDataRegistry.find A = some (EntityMetaData.mk (some A) []))
    (hB : iModel.classMetaDataRegistry.find B = some (EntityMetaData.mk (some B) [A]))
    (hC : iModel.classMetaDataRegistry.find C = some (EntityMetaData.mk (some C) [B]))
    (hwA : wfName A = true) (hwB : wfName B = true) (hwC : wfName C = true)
    (h0A : mget st.classMap (lowerStr A) = none)
    (h0B : mget st.classMap (lowerStr B) = none)
    (h0C : mget st.classMap (lowerStr C) = none) :
    ∃ cA cB cC st',
      getClassF (f + 3) C iModel st = some (Except.ok cC, st') ∧
      lookupClass st' A = some cA ∧
      lookupClass st' B = some cB ∧
      lookupClass st' C = some cC ∧
      cB.parent = some cA ∧
      cC.parent = some cB := by
  have hfa : mget iModel.classMetaDataRegistry.reg (lowerStr A)
      = some (EntityMetaData.mk (some A) []) := hA
  have hfb : mget iModel.classMetaDataRegistry.reg (lowerStr B)
      = some (EntityMetaData.mk (some B) [A]) := hB
  have hfc : mget iModel.classMetaDataRegistry.reg (lowerStr C)
      = some (EntityMetaData.mk (some C) [B]) := hC
  have hAB : lowerStr A ≠ lowerStr B := by
    intro h
    have h1 : some (EntityMetaData.mk (some A) []) = some (EntityMetaData.mk (some B) [A]) := by
      rw [← hfa, h]
      exact hfb
    have h2 := Option.some.inj h1
    injection h2 with hF1 hF2
    simp at hF2
  have hAC : lowerStr A ≠ lowerStr C := by
    intro h
    have h1 : some (EntityMetaData.mk (some A) []) = some (EntityMetaData.mk (some C) [B]) := by
      rw [← hfa, h]
      exact hfc
    have h2 := Option.some.inj h1
    injection h2 with hF1 hF2
    simp at hF2
  have hBC : lowerStr B ≠ lowerStr C := by
    intro h
    have h1 : some (EntityMetaData.mk (some B) [A]) = some (EntityMetaData.mk (some C) [B]) := by
      rw [← hfb, h]
      exact hfc
    have h2 := Option.some.inj h1
    injection h2 with hF1 hF2
    injection hF2 with hF3 hF4
    exact hAB (by rw [hF3])
  obtain ⟨sA, nA, rA, hspA, hkA⟩ := wfName_spec hwA
  obtain ⟨sB, nB, rB, hspB, hkB⟩ := wfName_spec hwB
  obtain ⟨sC, nC, rC, hspC, hkC⟩ := wfName_spec hwC
  have stepA : ∃ ctorA stA,
      getClassF (f + 1) A iModel st = some (Except.ok ctorA, stA) ∧
      lookupClass stA A = some ctorA ∧
      (∀ k', lowerStr A ≠ k' → mget stA.classMap k' = mget st.classMap k') ∧
      ctorA.parent = none := by
    refine ⟨EntityCtor.root nA (Schema.mk sA) st.nextId,
      RegState.mk (mset st.classMap (lowerStr A) (EntityCtor.root nA (Schema.mk sA) st.nextId))
        (schemaUpd st.schemas sA) (st.nextId + 1), ?_, ?_, ?_, rfl⟩
    · rw [getClassF_miss h0A, genF_root hA rfl rfl, genFE_root hspA hkA]
    · exact mget_mset_self st.classMap (lowerStr A) (EntityCtor.root nA (Schema.mk sA) st.nextId)
    · intro k' hk'
      exact mget_mset_ne st.classMap (lowerStr A) k' (EntityCtor.root nA (Schema.mk sA) st.nextId) hk'
  obtain ⟨ctorA, stA, eA, hregA, hdelA, hparA⟩ := stepA
  have stepB : ∃ ctorB stB,
      getClassF (f + 1 + 1) B iModel st = some (Except.ok ctorB, stB) ∧
      lookupClass stB B = some ctorB ∧
      (∀ k', lowerStr B ≠ k' → mget stB.classMap k' = mget stA.classMap k') ∧
      ctorB.parent = some ctorA := by
    refine ⟨EntityCtor.derived nB (Schema.mk sB) ctorA stA.nextId,
      RegState.mk (mset stA.classMap (lowerStr B) (EntityCtor.derived nB (Schema.mk sB) ctorA stA.nextId))
        (schemaUpd stA.schemas sB) (stA.nextId + 1), ?_, ?_, ?_, rfl⟩
    · have e1 : getClassF (f + 1 + 1) B iModel st = generateClassF (f + 1) B iModel st :=
        getClassF_miss h0B
      have e2 : generateClassF (f + 1) B iModel st
          = some (generateClassForEntity (EntityMetaData.mk (some B) [A]) stA) :=
        genF_base_ok hB rfl rfl eA
      have e3 : generateClassForEntity (EntityMetaData.mk (some B) [A]) stA
          = (Except.ok (EntityCtor.derived nB (Schema.mk sB) ctorA stA.nextId),
             RegState.mk (mset stA.classMap (lowerStr B)
                 (EntityCtor.derived nB (Schema.mk sB) ctorA stA.nextId))
               (schemaUpd stA.schemas sB) (stA.nextId + 1)) :=
        genFE_derived hspB hkB hregA
      exact e1.trans (e2.trans (congrArg Option.some e3))
    · exact mget_mset_self stA.classMap (lowerStr B)
        (EntityCtor.derived nB (Schema.mk sB) ctorA stA.nextId)
    · intro k' hk'
      exact mget_mset_ne stA.classMap (lowerStr B) k'
        (EntityCtor.derived nB (Schema.mk sB) ctorA stA.nextId) hk'
  obtain ⟨ctorB, stB, eB, hregB, hdelB, hparB⟩ := stepB
  have stepC : ∃ ctorC stC,
      getClassF (f + 1 + 1 + 1) C iModel st = some (Except.ok ctorC, stC) ∧
      lookupClass stC C = some ctorC ∧
      (∀ k', lowerStr C ≠ k' → mget stC.classMap k' = mget stB.classMap k') ∧
      ctorC.parent = some ctorB := by
    refine ⟨EntityCtor.derived nC (Schema.mk sC) ctorB stB.nextId,
      RegState.mk (mset stB.classMap (lowerStr C) (EntityCtor.derived nC (Schema.mk sC) ctorB stB.nextId))
        (schemaUpd stB.schemas sC) (stB.nextId + 1), ?_, ?_, ?_, rfl⟩
    · have e1 : getClassF (f + 1 + 1 + 1) C iModel st = generateClassF (f + 1 + 1) C iModel st :=
        getClassF_miss h0C
      have e2 : generateClassF (f + 1 + 1) C iModel st
          = some (generateClassForEntity (EntityMetaData.mk (some C) [B]) stB) :=
        genF_base_ok hC rfl rfl eB
      have e3 : generateClassForEntity (EntityMetaData.mk (some C) [B]) stB
          = (Except.ok (EntityCtor.derived nC (Schema.mk sC) ctorB stB.nextId),
             RegState.mk (mset stB.classMap (lowerStr C)
                 (EntityCtor.derived nC (Schema.mk sC) ctorB stB.nextId))
               (schemaUpd stB.schemas sC) (stB.nextId + 1)) :=
        genFE_derived hspC hkC hregB
      exact e1.trans (e2.trans (congrArg Option.some e3))
    · exact mget_mset_self stB.classMap (lowerStr C)
        (EntityCtor.derived nC (Schema.mk sC) ctorB stB.nextId)
    · intro k' hk'
      exact mget_mset_ne stB.classMap (lowerStr C) k'
        (EntityCtor.derived nC (Schema.mk sC) ctorB stB.nextId) hk'
  obtain ⟨ctorC, stC, eC, hregC, hdelC, hparC⟩ := stepC
  have lookB : lookupClass stC B = some ctorB := by
    have h1 : mget stC.classMap (lowerStr B) = mget stB.classMap (lowerStr B) :=
      hdelC (lowerStr B) hBC.symm
    exact h1.trans hregB
  have lookA : lookupClass stC A = some ctorA := by
    have h1 : mget stC.classMap (lowerStr A) = mget stB.classMap (lowerStr A) :=
      hdelC (lowerStr A) hAC.symm
    have h2 : mget stB.classMap (lowerStr A) = mget stA.classMap (lowerStr A) :=
      hdelB (lowerStr A) hAB.symm
    exact (h1.trans h2).trans hregA
  exact ⟨ctorA, ctorB, ctorC, stC, eC, lookA, lookB, hregC, hparB, hparC⟩

/-- C3 witness: the chain s:a ← s:b ← s:c from an empty registry. -/
theorem getClass_topological_chain_witness :
    ∃ cA cB cC st',
      getClassF 3 ("s:c")
        (IModelDb.mk (MetaDataRegistry.mk
          [(("s:a"), EntityMetaData.mk (some ("s:a")) []),
           (("s:b"), EntityMetaData.mk (some ("s:b")) [("s:a")]),
           (("s:c"), EntityMetaData.mk (some ("s:c")) [("s:b")])]))
        (RegState.mk [] [] 0)
      = some (Except.ok cC, st') ∧
      lookupClass st' ("s:a") = some cA ∧
      lookupClass st' ("s:b") = some cB ∧
      lookupClass st' ("s:c") = some cC ∧
      cB.parent = some cA ∧
      cC.parent = some cB :=
  getClass_topological_chain 0 ("s:a") ("s:b") ("s:c")
    (IModelDb.mk (MetaDataRegistry.mk
      [(("s:a"), EntityMetaData.mk (some ("s:a")) []),
       (("s:b"), EntityMetaData.mk (some ("s:b")) [("s:a")]),
       (("s:c"), EntityMetaData.mk (some ("s:c")) [("s:b")])]))
    (RegState.mk [] [] 0)
    (by decide) (by decide) (by decide) (by decide) (by decide) (by decide)
    (by decide) (by decide) (by decide)
